import Mathlib

/-!
Verification of the ConceptCatch quiz attempt lifecycle and scoring engine.

The React frontend (`QuizResultsPage.jsx`, `TakeQuiz` in the pages sources,
`QuizEditorPage`) is embedded directly.  The FastAPI backend that implements
the Attempt Engine, the Scoring/Grading Policy, the Quiz Store validation and
the Mistake Aggregation Engine is not part of the supplied sources; those
components are modelled from the specification (each such definition carries a
doc comment starting with `Modelled from the spec:`).
-/

namespace ConceptCatch

/-! ## Percentage display (`QuizResultsPage.jsx`)

`const percentage = maxScore > 0 ? Math.round((score / maxScore) * 100) : 0`
JavaScript's `Math.round` rounds half-way cases toward positive infinity,
i.e. `Math.round x = ⌊x + 1/2⌋`. -/

/-- JavaScript `Math.round`: floor of the argument plus one half. -/
def jsRound (q : ℚ) : ℤ := ⌊q + 1 / 2⌋

/-- The percentage shown by `QuizResultsPage.jsx` (lines 71–73). -/
def percentage (score maxScore : ℚ) : ℤ :=
  if 0 < maxScore then jsRound (score / maxScore * 100) else 0

/-! ## Response map (`TakeQuiz`, `handleResponseChange`)

`setResponses(prev => ({ ...prev, [questionId]: value }))` — a JavaScript
object spread that overwrites the entry for `questionId` when present and
inserts it at the end otherwise.  The object is modelled as an association
list whose keys are unique; `Object.keys(responses).length`
(`getAnsweredCount`) is then the list length. -/

/-- Object spread update `{ ...rs, [k]: v }`: replace the entry for `k` if
one exists, otherwise append `(k, v)`. -/
def setResponse {α β : Type} [DecidableEq α] (rs : List (α × β)) (k : α) (v : β) :
    List (α × β) :=
  if rs.any (fun p => decide (p.1 = k)) then
    rs.map (fun p => if p.1 = k then (k, v) else p)
  else
    rs ++ [(k, v)]

/-- JavaScript property lookup `rs[k]` on the modelled object. -/
def lookupResponse {α β : Type} [DecidableEq α] (rs : List (α × β)) (k : α) :
    Option β :=
  (rs.find? (fun p => decide (p.1 = k))).map Prod.snd

/-- `getAnsweredCount` from `TakeQuiz`: `Object.keys(responses).length`. -/
def getAnsweredCount {α β : Type} (rs : List (α × β)) : Nat := rs.length

/-- Applying a batch of response updates in order (last write wins). -/
def applyResponses {α β : Type} [DecidableEq α]
    (rs : List (α × β)) (updates : List (α × β)) : List (α × β) :=
  updates.foldl (fun a p => setResponse a p.1 p.2) rs

/-! ## `formatTime` (`TakeQuiz` and `QuizResultsPage.jsx`)

```js
const formatTime = (seconds) => {
  const mins = Math.floor(seconds / 60)
  const secs = seconds % 60
  return `${mins}:${secs.toString().padStart(2, '0')}`
}
```
Decimal rendering of a natural number (JavaScript `toString`) is embedded
with an explicit fuel argument so that it stays structurally recursive. -/

/-- The character for a single decimal digit (`0 ≤ d ≤ 9`). -/
def digitChar (d : Nat) : Char :=
  match d with
  | 0 => '0' | 1 => '1' | 2 => '2' | 3 => '3' | 4 => '4'
  | 5 => '5' | 6 => '6' | 7 => '7' | 8 => '8' | _ => '9'

/-- Numeric value of a decimal digit character. -/
def charVal (c : Char) : Nat := c.toNat - 48

/-- Decimal digits of `n`, most significant first, for positive `n`;
`fuel ≥ n` guarantees enough recursion depth. -/
def natCharsAux : Nat → Nat → List Char
  | 0, _ => []
  | fuel + 1, n => if n = 0 then [] else natCharsAux fuel (n / 10) ++ [digitChar (n % 10)]

/-- JavaScript `Number.prototype.toString` for a natural number. -/
def natChars (n : Nat) : List Char :=
  if n = 0 then ['0'] else natCharsAux n n

/-- JavaScript `String.prototype.padStart(n, c)`. -/
def padStart (l : List Char) (n : Nat) (c : Char) : List Char :=
  List.replicate (n - l.length) c ++ l

/-- `formatTime` from `TakeQuiz` (lines 132–136) and `QuizResultsPage.jsx`
(lines 76–80). -/
def formatTime (seconds : Nat) : String :=
  let mins := seconds / 60
  let secs := seconds % 60
  String.mk (natChars mins ++ [':'] ++ padStart (natChars secs) 2 '0')

/-- Reading the rendered string back: the minutes field is everything before
the first colon. -/
def minutesField (l : List Char) : List Char := l.takeWhile (fun c => c != ':')

/-- Reading the rendered string back: the seconds field is everything after
the first colon. -/
def secondsField (l : List Char) : List Char :=
  (l.dropWhile (fun c => c != ':')).drop 1

/-- Numeric value of a most-significant-first decimal digit string. -/
def valOfChars (l : List Char) : Nat := l.foldl (fun a c => 10 * a + charVal c) 0

/-! ## Scoring / Grading Policy (spec §4.4)

The FastAPI grading code is not among the supplied sources; the per-question
comparison rules are modelled from the specification. -/

/-- Modelled from the spec: ASCII whitespace test used for trimming. -/
def isWs (c : Char) : Bool := c = ' ' || c = '\t' || c = '\n' || c = '\r'

/-- Modelled from the spec: strip leading and trailing whitespace. -/
def trimChars (l : List Char) : List Char :=
  ((l.dropWhile isWs).reverse.dropWhile isWs).reverse

/-- Modelled from the spec: ASCII lower-casing of one character. -/
def lowerChar (c : Char) : Char :=
  if 65 ≤ c.toNat && c.toNat ≤ 90 then Char.ofNat (c.toNat + 32) else c

/-- Modelled from the spec: the whitespace-trimmed, case-insensitive normal
form of an answer string (spec §4.4, MCQ / True-False matching). -/
def normalize (s : String) : List Char := (trimChars s.data).map lowerChar

/-- Modelled from the spec: MCQ / True-False credit — `1` on a trimmed,
case-insensitive match with the canonical answer, else `0`; the missing
backend grader is the Scoring/Grading Policy of spec §4.4. -/
def gradeMcq (canonical answer : String) : ℚ :=
  if normalize answer = normalize canonical then 1 else 0

/-! ## Data model (spec §3) -/

/-- Question types of the data model (spec §3). -/
inductive QType
  | mcq
  | trueFalse
  | shortAnswer
  | essay
deriving DecidableEq

/-- A quiz question (spec §3): prompt, type, options, canonical correct
answer, explanation and the topic tag used for mistake aggregation. -/
structure Question where
  id : Nat
  prompt : String
  qtype : QType
  options : List String
  correctAnswer : String
  explanation : String
  topicTag : String
deriving DecidableEq

/-- Modelled from the spec: the §3 invariant — MCQ/True-False questions have
at least two options and the correct answer is one of them. -/
def validQuestion (q : Question) : Bool :=
  match q.qtype with
  | QType.mcq | QType.trueFalse =>
      decide (2 ≤ q.options.length) && q.options.contains q.correctAnswer
  | _ => true

/-- Publication state of a quiz (spec §3). -/
inductive QuizState
  | draft
  | published
deriving DecidableEq

/-- A stored quiz (spec §3). -/
structure Quiz where
  owner : Nat
  title : String
  questions : List Question
  state : QuizState
deriving DecidableEq

/-- The error taxonomy of spec §7. -/
inductive CoreError
  | notFound
  | invalidState
  | validationError
  | alreadySubmitted
  | unknownQuestion
  | attemptInProgress
deriving DecidableEq

/-! ## Quiz Store (spec §4.1)

Modelled from the spec: the backend Quiz Store is not among the supplied
sources.  Of the two behaviours spec §4.1 allows for updating a Published
quiz, the hard-fail (`InvalidState`) one is modelled. -/

/-- The Quiz Store state: stored quizzes keyed by id, plus the next fresh id. -/
structure QuizStore where
  quizzes : List (Nat × Quiz)
  nextId : Nat
deriving DecidableEq

/-- Modelled from the spec: `getQuiz(id)` lookup. -/
def getQuizRec (st : QuizStore) (id : Nat) : Option Quiz :=
  (st.quizzes.find? (fun p => decide (p.1 = id))).map Prod.snd

/-- Modelled from the spec: `createQuiz(spec)` — validates every question
against the §3 invariant (`ValidationError` otherwise) and stores a Draft. -/
def createQuiz (st : QuizStore) (owner : Nat) (title : String)
    (qs : List Question) : Except CoreError (QuizStore × Nat) :=
  if qs.all validQuestion then
    Except.ok
      ({ quizzes := st.quizzes ++
            [(st.nextId,
              { owner := owner, title := title, questions := qs,
                state := QuizState.draft })],
         nextId := st.nextId + 1 }, st.nextId)
  else Except.error CoreError.validationError

/-- Modelled from the spec: `updateQuiz(id, questions)` — validates the new
question set, requires the quiz to be Draft, replaces its questions. -/
def updateQuiz (st : QuizStore) (id : Nat) (qs : List Question) :
    Except CoreError QuizStore :=
  if qs.all validQuestion then
    match getQuizRec st id with
    | none => Except.error CoreError.notFound
    | some quiz =>
      match quiz.state with
      | QuizState.published => Except.error CoreError.invalidState
      | QuizState.draft =>
        Except.ok
          { st with
            quizzes := st.quizzes.map (fun p =>
              if p.1 = id then (id, { quiz with questions := qs }) else p) }
  else Except.error CoreError.validationError

/-- Modelled from the spec: `publish(id)` — Draft → Published, irreversible. -/
def publishQuiz (st : QuizStore) (id : Nat) : Except CoreError QuizStore :=
  match getQuizRec st id with
  | none => Except.error CoreError.notFound
  | some quiz =>
    match quiz.state with
    | QuizState.published => Except.error CoreError.invalidState
    | QuizState.draft =>
      Except.ok
        { st with
          quizzes := st.quizzes.map (fun p =>
            if p.1 = id then (id, { quiz with state := QuizState.published })
            else p) }

/-- One Quiz Store API call (spec §4.1). -/
inductive StoreOp
  | create (owner : Nat) (title : String) (qs : List Question)
  | update (id : Nat) (qs : List Question)
  | publish (id : Nat)

/-- Run one store operation; a failed call leaves the store unchanged
(spec §7: errors are reported, never partially applied). -/
def applyStoreOp (st : QuizStore) (op : StoreOp) : QuizStore :=
  match op with
  | StoreOp.create o t qs =>
    match createQuiz st o t qs with
    | Except.ok (st', _) => st'
    | Except.error _ => st
  | StoreOp.update id qs =>
    match updateQuiz st id qs with
    | Except.ok st' => st'
    | Except.error _ => st
  | StoreOp.publish id =>
    match publishQuiz st id with
    | Except.ok st' => st'
    | Except.error _ => st

/-- The empty Quiz Store. -/
def emptyStore : QuizStore := { quizzes := [], nextId := 0 }

/-- Run a sequence of store operations from the empty store. -/
def runStore (ops : List StoreOp) : QuizStore := ops.foldl applyStoreOp emptyStore

/-- Publication state of a stored quiz, when it exists. -/
def quizStateOf (st : QuizStore) (id : Nat) : Option QuizState :=
  (getQuizRec st id).map Quiz.state

/-- The store-wide §3 invariant: every stored question is valid. -/
def storeInv (st : QuizStore) : Prop :=
  ∀ p ∈ st.quizzes, ∀ q ∈ p.2.questions, validQuestion q = true

/-! ## Attempt Engine (spec §4.3)

Modelled from the spec: the backend Attempt Engine is not among the supplied
sources.  Oracle-delegated judgment for Short-Answer fallback and Essay
grading is abstracted as an explicit `judge` function parameter. -/

/-- Attempt lifecycle states (spec §4.3). -/
inductive AttemptState
  | inProgress
  | submitted
  | expired
deriving DecidableEq

/-- Per-question result record produced at finalization (spec §4.4). -/
structure QuestionResult where
  questionId : Nat
  isCorrect : Bool
  studentAnswer : Option String
  correctAnswer : String
  explanation : String
  mistakeTag : Option String
deriving DecidableEq

/-- Modelled from the spec: per-question credit (spec §4.4).  Unanswered
questions score zero; MCQ/True-False use the trimmed case-insensitive match;
Short Answer falls back to the oracle `judge` when the exact match fails;
Essay always delegates to `judge`. -/
def gradeQuestion (judge : Question → String → ℚ) (q : Question)
    (ans : Option String) : ℚ :=
  match ans with
  | none => 0
  | some a =>
    match q.qtype with
    | QType.mcq | QType.trueFalse => gradeMcq q.correctAnswer a
    | QType.shortAnswer =>
      if normalize a = normalize q.correctAnswer then 1 else judge q a
    | QType.essay => judge q a

/-- Modelled from the spec: the `QuestionResult` for one question (spec §4.4):
`isCorrect` only for full credit, mistake tag from the topic tag exactly when
incorrect. -/
def questionResult (judge : Question → String → ℚ)
    (responses : List (Nat × String)) (q : Question) : QuestionResult :=
  let ans := lookupResponse responses q.id
  let credit := gradeQuestion judge q ans
  { questionId := q.id
    isCorrect := decide (credit = 1)
    studentAnswer := ans
    correctAnswer := q.correctAnswer
    explanation := q.explanation
    mistakeTag := if credit = 1 then none else some q.topicTag }

/-- Modelled from the spec: aggregate score and result breakdown of a frozen
snapshot against a response set (spec §4.4): score is the sum of per-question
credit, one point per question. -/
def scoreAttempt (judge : Question → String → ℚ) (snapshot : List Question)
    (responses : List (Nat × String)) : ℚ × List QuestionResult :=
  ((snapshot.map (fun q => gradeQuestion judge q (lookupResponse responses q.id))).sum,
   snapshot.map (questionResult judge responses))

/-- An attempt record (spec §3). -/
structure AttemptRec where
  quizId : Nat
  studentId : Nat
  state : AttemptState
  snapshot : List Question
  responses : List (Nat × String)
  score : Option ℚ
  maxScore : Option ℚ
  breakdown : Option (List QuestionResult)
  timeTaken : Option Nat
deriving DecidableEq

/-- The Attempt Engine state: attempts keyed by id, plus the next fresh id. -/
structure Engine where
  attempts : List (Nat × AttemptRec)
  nextId : Nat
deriving DecidableEq

/-- Lookup of an attempt by id. -/
def lookupAttempt (e : Engine) (aid : Nat) : Option AttemptRec :=
  (e.attempts.find? (fun p => decide (p.1 = aid))).map Prod.snd

/-- Replace the attempt stored under `aid`. -/
def updateAttempt (e : Engine) (aid : Nat) (a : AttemptRec) : Engine :=
  { e with attempts := e.attempts.map (fun p => if p.1 = aid then (aid, a) else p) }

/-- Modelled from the spec: `startAttempt` (spec §4.3) with the
reject-with-`AttemptInProgress` policy for a second concurrent attempt on the
same (student, quiz) pair. -/
def startAttempt (e : Engine) (quizId studentId : Nat)
    (snapshot : List Question) : Except CoreError (Engine × Nat) :=
  if e.attempts.any (fun p =>
      decide (p.2.quizId = quizId ∧ p.2.studentId = studentId ∧
        p.2.state = AttemptState.inProgress)) then
    Except.error CoreError.attemptInProgress
  else
    Except.ok
      ({ attempts := e.attempts ++
            [(e.nextId,
              { quizId := quizId, studentId := studentId,
                state := AttemptState.inProgress, snapshot := snapshot,
                responses := [], score := none, maxScore := none,
                breakdown := none, timeTaken := none })],
         nextId := e.nextId + 1 }, e.nextId)

/-- Modelled from the spec: `recordResponse` (spec §4.3), requiring state
InProgress and a question of the frozen snapshot, with last-write-wins
overwrite. -/
def recordResponse (e : Engine) (aid qid : Nat) (answer : String) :
    Except CoreError Engine :=
  match lookupAttempt e aid with
  | none => Except.error CoreError.notFound
  | some a =>
    match a.state with
    | AttemptState.inProgress =>
      if a.snapshot.any (fun q => decide (q.id = qid)) then
        Except.ok (updateAttempt e aid
          { a with responses := setResponse a.responses qid answer })
      else Except.error CoreError.unknownQuestion
    | _ => Except.error CoreError.invalidState

/-- Modelled from the spec: the finalized attempt record built by
`submitAttempt` (spec §4.3) — final response batch merged last-write-wins,
the frozen snapshot scored exactly once, state moved to Submitted. -/
def finalizeAttempt (judge : Question → String → ℚ) (a : AttemptRec)
    (finalResponses : List (Nat × String)) (timeTaken : Nat) : AttemptRec :=
  let merged := applyResponses a.responses finalResponses
  let result := scoreAttempt judge a.snapshot merged
  { a with
    state := AttemptState.submitted
    responses := merged
    score := some result.1
    maxScore := some (a.snapshot.length : ℚ)
    breakdown := some result.2
    timeTaken := some timeTaken }

/-- Modelled from the spec: `submitAttempt` (spec §4.3) — requires state
InProgress, finalizes atomically; a repeated submit is rejected with
`AlreadySubmitted`. -/
def submitAttempt (judge : Question → String → ℚ) (e : Engine) (aid : Nat)
    (finalResponses : List (Nat × String)) (timeTaken : Nat) :
    Except CoreError Engine :=
  match lookupAttempt e aid with
  | none => Except.error CoreError.notFound
  | some a =>
    match a.state with
    | AttemptState.submitted => Except.error CoreError.alreadySubmitted
    | AttemptState.expired => Except.error CoreError.invalidState
    | AttemptState.inProgress =>
      Except.ok (updateAttempt e aid (finalizeAttempt judge a finalResponses timeTaken))

/-- One Attempt Engine API call (spec §4.3). -/
inductive EngineOp
  | start (quizId studentId : Nat) (snapshot : List Question)
  | record (aid qid : Nat) (answer : String)
  | submit (aid : Nat) (finalResponses : List (Nat × String)) (timeTaken : Nat)

/-- Run one engine operation; a failed call leaves the engine unchanged
(spec §4.3: transitions are all-or-nothing). -/
def applyEngineOp (judge : Question → String → ℚ) (e : Engine) (op : EngineOp) :
    Engine :=
  match op with
  | EngineOp.start q s snap =>
    match startAttempt e q s snap with
    | Except.ok (e', _) => e'
    | Except.error _ => e
  | EngineOp.record aid qid ans =>
    match recordResponse e aid qid ans with
    | Except.ok e' => e'
    | Except.error _ => e
  | EngineOp.submit aid rs t =>
    match submitAttempt judge e aid rs t with
    | Except.ok e' => e'
    | Except.error _ => e

/-! ## Mistake Aggregation & Profile Engine (spec §4.5)

Modelled from the spec: the backend Aggregation Engine is not among the
supplied sources. -/

/-- A student profile as read through `getProfile` (spec §4.5 / §3). -/
structure Profile where
  totalAttempts : Nat
  averageScore : ℚ
deriving DecidableEq

/-- The profile before any finalized attempt. -/
def emptyProfile : Profile := { totalAttempts := 0, averageScore := 0 }

/-- Modelled from the spec: on a newly Submitted attempt the Aggregation
Engine recomputes the rolling average score as a running mean over all
finalized attempts (spec §4.5). -/
def recordFinalizedAttempt (pr : Profile) (p : ℚ) : Profile :=
  { totalAttempts := pr.totalAttempts + 1
    averageScore :=
      (pr.averageScore * pr.totalAttempts + p) / (pr.totalAttempts + 1) }

/-- Fold a student's finalized attempt percentages into a profile. -/
def buildProfile (ps : List ℚ) : Profile :=
  ps.foldl recordFinalizedAttempt emptyProfile

/-- Modelled from the spec: the `getProfile` read contract (spec §4.5),
restricted to the two numeric fields the claims are about. -/
def getProfile (pr : Profile) : ℚ × Nat := (pr.averageScore, pr.totalAttempts)

/-! ## Basic lemmas about the response map -/

theorem find?_map_update_other {α β : Type} [DecidableEq α]
    (rs : List (α × β)) (k k' : α) (v : β) (h : k' ≠ k) :
    (rs.map (fun p => if p.1 = k then (k, v) else p)).find?
        (fun p => decide (p.1 = k')) =
      rs.find? (fun p => decide (p.1 = k')) := by
  induction rs with
  | nil => rfl
  | cons p rs ih =>
    by_cases hp : p.1 = k
    · simp only [List.map_cons, if_pos hp, List.find?]
      rw [show (decide (k = k')) = false by simp [Ne.symm h],
        show (decide (p.1 = k')) = false by simp [hp, Ne.symm h]]
      exact ih
    · simp only [List.map_cons, if_neg hp, List.find?]
      cases hq : decide (p.1 = k') with
      | true => rfl
      | false => exact ih

theorem find?_map_update_self {α β : Type} [DecidableEq α]
    (rs : List (α × β)) (k : α) (v : β)
    (h : rs.any (fun p => decide (p.1 = k)) = true) :
    (rs.map (fun p => if p.1 = k then (k, v) else p)).find?
        (fun p => decide (p.1 = k)) = some (k, v) := by
  induction rs with
  | nil => simp at h
  | cons p rs ih =>
    by_cases hp : p.1 = k
    · simp [List.find?, hp]
    · simp only [List.any_cons, decide_eq_true_eq, hp, false_or] at h
      simp only [List.map_cons, if_neg hp, List.find?]
      rw [show (decide (p.1 = k)) = false by simp [hp]]
      exact ih h

theorem map_update_of_not_mem {α β : Type} [DecidableEq α]
    (rs : List (α × β)) (k : α) (v : β)
    (h : ¬ rs.any (fun p => decide (p.1 = k)) = true) :
    rs.map (fun p => if p.1 = k then (k, v) else p) = rs := by
  induction rs with
  | nil => rfl
  | cons p rs ih =>
    simp only [List.any_cons, Bool.or_eq_true, decide_eq_true_eq, not_or] at h
    simp only [List.map_cons, if_neg h.1]
    rw [ih (by simpa using h.2)]

theorem find?_of_not_key {α β : Type} [DecidableEq α]
    (rs : List (α × β)) (k : α)
    (h : ¬ rs.any (fun p => decide (p.1 = k)) = true) :
    rs.find? (fun p => decide (p.1 = k)) = none := by
  rw [List.find?_eq_none]
  intro p hp
  simp only [List.any_eq_true, not_exists, not_and] at h
  exact h p hp

theorem lookupResponse_setResponse_self {α β : Type} [DecidableEq α]
    (rs : List (α × β)) (k : α) (v : β) :
    lookupResponse (setResponse rs k v) k = some v := by
  unfold setResponse lookupResponse
  by_cases h : rs.any (fun p => decide (p.1 = k)) = true
  · rw [if_pos h, find?_map_update_self rs k v h]
    rfl
  · rw [if_neg h, List.find?_append, find?_of_not_key rs k h]
    simp [List.find?]

theorem lookupResponse_setResponse_other {α β : Type} [DecidableEq α]
    (rs : List (α × β)) (k k' : α) (v : β) (h : k' ≠ k) :
    lookupResponse (setResponse rs k v) k' = lookupResponse rs k' := by
  unfold setResponse lookupResponse
  by_cases hmem : rs.any (fun p => decide (p.1 = k)) = true
  · rw [if_pos hmem, find?_map_update_other rs k k' v h]
  · rw [if_neg hmem, List.find?_append]
    have hone : List.find? (fun p => decide (p.1 = k')) [(k, v)] = none := by
      simp [List.find?, Ne.symm h]
    rw [hone]
    cases rs.find? (fun p => decide (p.1 = k')) <;> rfl

theorem setResponse_setResponse_self {α β : Type} [DecidableEq α]
    (rs : List (α × β)) (k : α) (v₁ v₂ : β) :
    setResponse (setResponse rs k v₁) k v₂ = setResponse rs k v₂ := by
  unfold setResponse
  by_cases hmem : rs.any (fun p => decide (p.1 = k)) = true
  · have hmap : (rs.map (fun p => if p.1 = k then (k, v₁) else p)).any
        (fun p => decide (p.1 = k)) = true := by
      simp only [List.any_eq_true, decide_eq_true_eq] at hmem ⊢
      obtain ⟨p, hp, hpk⟩ := hmem
      exact ⟨(k, v₁), List.mem_map.2 ⟨p, hp, by simp [hpk]⟩, rfl⟩
    rw [if_pos hmem, if_pos hmap, if_pos hmem, List.map_map]
    apply List.map_congr_left
    intro p _
    by_cases hp : p.1 = k <;> simp [Function.comp, hp]
  · have hmap : (rs ++ [(k, v₁)]).any (fun p => decide (p.1 = k)) = true := by
      simp [List.any_eq_true]
    rw [if_neg hmem, if_pos hmap, if_neg hmem, List.map_append,
      map_update_of_not_mem rs k v₂ hmem]
    simp

theorem length_setResponse {α β : Type} [DecidableEq α]
    (rs : List (α × β)) (k : α) (v : β) :
    rs.length ≤ (setResponse rs k v).length := by
  unfold setResponse
  by_cases hmem : rs.any (fun p => decide (p.1 = k)) = true
  · rw [if_pos hmem, List.length_map]
  · rw [if_neg hmem, List.length_append]
    omega

theorem length_applyResponses {α β : Type} [DecidableEq α]
    (rs : List (α × β)) (updates : List (α × β)) :
    rs.length ≤ (applyResponses rs updates).length := by
  induction updates generalizing rs with
  | nil => exact Nat.le_refl _
  | cons u us ih =>
    exact Nat.le_trans (length_setResponse rs u.1 u.2) (ih _)

theorem isSome_lookupResponse_setResponse {α β : Type} [DecidableEq α]
    (rs : List (α × β)) (k k' : α) (v : β)
    (h : (lookupResponse rs k').isSome) :
    (lookupResponse (setResponse rs k v) k').isSome := by
  by_cases hk : k' = k
  · subst hk
    rw [lookupResponse_setResponse_self]
    rfl
  · rw [lookupResponse_setResponse_other rs k k' v hk]
    exact h

theorem nodupKeys_setResponse {α β : Type} [DecidableEq α]
    (rs : List (α × β)) (k : α) (v : β)
    (h : (rs.map Prod.fst).Nodup) :
    ((setResponse rs k v).map Prod.fst).Nodup := by
  unfold setResponse
  by_cases hmem : rs.any (fun p => decide (p.1 = k)) = true
  · rw [if_pos hmem, List.map_map]
    have heq : (rs.map (Prod.fst ∘ fun p => if p.1 = k then (k, v) else p)) =
        rs.map Prod.fst := by
      apply List.map_congr_left
      intro p _
      by_cases hp : p.1 = k <;> simp [Function.comp, hp]
    rw [heq]; exact h
  · rw [if_neg hmem, List.map_append]
    rw [List.nodup_append]
    refine ⟨h, by simp, ?_⟩
    intro a ha hb
    simp only [List.map_cons, List.map_nil, List.mem_singleton] at hb
    subst hb
    simp only [List.any_eq_true, not_exists, not_and] at hmem
    obtain ⟨p, hp, hpa⟩ := List.mem_map.1 ha
    exact absurd hpa (by simpa using hmem p hp)

/-! ### Lemmas about decimal rendering -/

theorem charVal_digitChar (d : Nat) (h : d < 10) : charVal (digitChar d) = d := by
  interval_cases d <;> rfl

theorem digitChar_ne_colon (d : Nat) : (digitChar d != ':') = true := by
  unfold digitChar
  rcases d with _ | _ | _ | _ | _ | _ | _ | _ | _ | d <;> rfl

theorem foldl_val_append (l : List Char) (c : Char) (a : Nat) :
    (l ++ [c]).foldl (fun a c => 10 * a + charVal c) a =
      10 * l.foldl (fun a c => 10 * a + charVal c) a + charVal c := by
  rw [List.foldl_append]
  rfl

theorem valOfChars_append (l : List Char) (c : Char) :
    valOfChars (l ++ [c]) = 10 * valOfChars l + charVal c :=
  foldl_val_append l c 0

theorem natCharsAux_spec (fuel n : Nat) (h : n ≤ fuel) :
    valOfChars (natCharsAux fuel n) = n := by
  induction fuel generalizing n with
  | zero =>
    interval_cases n
    rfl
  | succ fuel ih =>
    by_cases hn : n = 0
    · subst hn; rfl
    · have hfuel : n / 10 ≤ fuel := by
        have : n / 10 < n := Nat.div_lt_self (Nat.pos_of_ne_zero hn) (by norm_num)
        omega
      show valOfChars (if n = 0 then [] else
        natCharsAux fuel (n / 10) ++ [digitChar (n % 10)]) = n
      rw [if_neg hn, valOfChars_append, ih _ hfuel,
        charVal_digitChar _ (Nat.mod_lt _ (by norm_num))]
      omega

theorem valOfChars_natChars (n : Nat) : valOfChars (natChars n) = n := by
  unfold natChars
  by_cases hn : n = 0
  · subst hn; rfl
  · rw [if_neg hn]
    exact natCharsAux_spec n n (Nat.le_refl n)

theorem natCharsAux_digits (fuel n : Nat) :
    ∀ c ∈ natCharsAux fuel n, ∃ d, d < 10 ∧ c = digitChar d := by
  induction fuel generalizing n with
  | zero => intro c hc; simp [natCharsAux] at hc
  | succ fuel ih =>
    intro c hc
    by_cases hn : n = 0
    · simp [natCharsAux, hn] at hc
    · rw [show natCharsAux (fuel + 1) n = natCharsAux fuel (n / 10) ++
        [digitChar (n % 10)] by simp [natCharsAux, hn]] at hc
      rcases List.mem_append.1 hc with h1 | h2
      · exact ih _ c h1
      · exact ⟨n % 10, Nat.mod_lt _ (by norm_num),
          by simpa using h2⟩

theorem natChars_digits (n : Nat) :
    ∀ c ∈ natChars n, ∃ d, d < 10 ∧ c = digitChar d := by
  unfold natChars
  by_cases hn : n = 0
  · rw [if_pos hn]
    intro c hc
    exact ⟨0, by norm_num, by simpa using hc⟩
  · rw [if_neg hn]
    exact natCharsAux_digits n n

theorem natChars_ne_colon (n : Nat) : ∀ c ∈ natChars n, (c != ':') = true := by
  intro c hc
  obtain ⟨d, _, hd⟩ := natChars_digits n c hc
  rw [hd]
  exact digitChar_ne_colon d

theorem takeWhile_append_colon (l₁ l₂ : List Char)
    (h : ∀ c ∈ l₁, (c != ':') = true) :
    (l₁ ++ ':' :: l₂).takeWhile (fun c => c != ':') = l₁ := by
  induction l₁ with
  | nil => simp [List.takeWhile]
  | cons c l₁ ih =>
    simp only [List.cons_append, List.takeWhile]
    rw [h c (List.mem_cons_self _ _)]
    simp only [List.cons.injEq, true_and]
    exact ih (fun c hc => h c (List.mem_cons_of_mem _ hc))

theorem dropWhile_append_colon (l₁ l₂ : List Char)
    (h : ∀ c ∈ l₁, (c != ':') = true) :
    (l₁ ++ ':' :: l₂).dropWhile (fun c => c != ':') = ':' :: l₂ := by
  induction l₁ with
  | nil => simp [List.dropWhile]
  | cons c l₁ ih =>
    simp only [List.cons_append, List.dropWhile]
    rw [h c (List.mem_cons_self _ _)]
    exact ih (fun c hc => h c (List.mem_cons_of_mem _ hc))

theorem valOfChars_replicate_zero (k : Nat) (l : List Char) :
    valOfChars (List.replicate k '0' ++ l) = valOfChars l := by
  induction k with
  | zero => rfl
  | succ k ih =>
    rw [List.replicate_succ, List.cons_append]
    show (List.replicate k '0' ++ l).foldl (fun a c => 10 * a + charVal c)
      (10 * 0 + charVal '0') = valOfChars l
    have : 10 * 0 + charVal '0' = 0 := rfl
    rw [this]
    exact ih

theorem valOfChars_padStart_zero (l : List Char) (n : Nat) :
    valOfChars (padStart l n '0') = valOfChars l :=
  valOfChars_replicate_zero _ l

theorem natChars_length_le_two (m : Nat) (h : m < 60) :
    (natChars m).length ≤ 2 := by
  revert h
  revert m
  decide

theorem length_padStart (l : List Char) (c : Char) (h : l.length ≤ 2) :
    (padStart l 2 c).length = 2 := by
  unfold padStart
  rw [List.length_append, List.length_replicate]
  omega

/-! ### Lemmas about rounding -/

theorem abs_jsRound_sub_le (q : ℚ) : |(jsRound q : ℚ) - q| ≤ 1 / 2 := by
  unfold jsRound
  have h1 : ((⌊q + 1 / 2⌋ : ℤ) : ℚ) ≤ q + 1 / 2 := Int.floor_le _
  have h2 : q + 1 / 2 < (⌊q + 1 / 2⌋ : ℚ) + 1 := Int.lt_floor_add_one _
  rw [abs_le]
  constructor <;> linarith

/-! ### Lemmas about the profile fold -/

theorem foldl_recordFinalizedAttempt (ps : List ℚ) (pr : Profile) :
    (ps.foldl recordFinalizedAttempt pr).totalAttempts =
        pr.totalAttempts + ps.length ∧
      (ps.foldl recordFinalizedAttempt pr).averageScore *
          ((pr.totalAttempts + ps.length : Nat) : ℚ) =
        pr.averageScore * pr.totalAttempts + ps.sum := by
  induction ps generalizing pr with
  | nil =>
    refine ⟨rfl, ?_⟩
    simp
  | cons p ps ih =>
    obtain ⟨ihT, ihA⟩ := ih (recordFinalizedAttempt pr p)
    have hT : (recordFinalizedAttempt pr p).totalAttempts = pr.totalAttempts + 1 :=
      rfl
    constructor
    · rw [List.foldl_cons, ihT, hT, List.length_cons]
      omega
    · rw [List.foldl_cons]
      have hlen : ((pr.totalAttempts + (p :: ps).length : Nat) : ℚ) =
          (((recordFinalizedAttempt pr p).totalAttempts + ps.length : Nat) : ℚ) := by
        rw [hT, List.length_cons]
        push_cast
        ring
      rw [hlen, ihA, hT]
      have hA : (recordFinalizedAttempt pr p).averageScore =
          (pr.averageScore * pr.totalAttempts + p) / (pr.totalAttempts + 1) := rfl
      have hne : ((pr.totalAttempts : ℚ) + 1) ≠ 0 := by positivity
      rw [hA]
      push_cast
      rw [div_mul_cancel₀ _ hne]
      rw [List.sum_cons]
      ring

/-! ### Lemmas about the Quiz Store -/

theorem createQuiz_ok_of_valid (st : QuizStore) (o : Nat) (t : String)
    (qs : List Question) (hv : qs.all validQuestion = true) :
    createQuiz st o t qs = Except.ok
      ({ quizzes := st.quizzes ++
          [(st.nextId,
            { owner := o, title := t, questions := qs,
              state := QuizState.draft })],
         nextId := st.nextId + 1 }, st.nextId) := by
  unfold createQuiz
  rw [if_pos hv]

theorem createQuiz_invalid (st : QuizStore) (o : Nat) (t : String)
    (qs : List Question) (hv : qs.all validQuestion = false) :
    createQuiz st o t qs = Except.error CoreError.validationError := by
  unfold createQuiz
  rw [if_neg (by rw [hv]; exact Bool.false_ne_true)]

theorem updateQuiz_invalid (st : QuizStore) (id : Nat) (qs : List Question)
    (hv : qs.all validQuestion = false) :
    updateQuiz st id qs = Except.error CoreError.validationError := by
  unfold updateQuiz
  rw [if_neg (by rw [hv]; exact Bool.false_ne_true)]

theorem storeInv_applyStoreOp (st : QuizStore) (op : StoreOp)
    (h : storeInv st) : storeInv (applyStoreOp st op) := by
  cases op with
  | create o t qs =>
    show storeInv (match createQuiz st o t qs with
      | Except.ok (st', _) => st'
      | Except.error _ => st)
    by_cases hv : qs.all validQuestion = true
    · rw [createQuiz_ok_of_valid st o t qs hv]
      intro p hp q hq
      rcases List.mem_append.1 hp with hin | hnew
      · exact h p hin q hq
      · simp only [List.mem_singleton] at hnew
        subst hnew
        exact List.all_eq_true.1 hv q hq
    · rw [createQuiz_invalid st o t qs (Bool.eq_false_iff.2 hv)]
      exact h
  | update id qs =>
    show storeInv (match updateQuiz st id qs with
      | Except.ok st' => st'
      | Except.error _ => st)
    by_cases hv : qs.all validQuestion = true
    · cases hfound : getQuizRec st id with
      | none =>
        have : updateQuiz st id qs = Except.error CoreError.notFound := by
          unfold updateQuiz
          rw [if_pos hv, hfound]
        rw [this]
        exact h
      | some quiz =>
        cases hstate : quiz.state with
        | published =>
          have : updateQuiz st id qs = Except.error CoreError.invalidState := by
            simp [updateQuiz, hv, hfound, hstate]
          rw [this]
          exact h
        | draft =>
          have : updateQuiz st id qs = Except.ok
              { st with quizzes := st.quizzes.map (fun p =>
                  if p.1 = id then (id, { quiz with questions := qs }) else p) } := by
            simp [updateQuiz, hv, hfound, hstate]
          rw [this]
          intro p hp q hq
          obtain ⟨p', hp', hpe⟩ := List.mem_map.1 hp
          by_cases hid : p'.1 = id
          · rw [if_pos hid] at hpe
            subst hpe
            exact List.all_eq_true.1 hv q hq
          · rw [if_neg hid] at hpe
            subst hpe
            exact h p' hp' q hq
    · rw [updateQuiz_invalid st id qs (Bool.eq_false_iff.2 hv)]
      exact h
  | publish id =>
    show storeInv (match publishQuiz st id with
      | Except.ok st' => st'
      | Except.error _ => st)
    cases hfound : getQuizRec st id with
    | none =>
      have : publishQuiz st id = Except.error CoreError.notFound := by
        unfold publishQuiz
        rw [hfound]
      rw [this]
      exact h
    | some quiz =>
      cases hstate : quiz.state with
      | published =>
        have : publishQuiz st id = Except.error CoreError.invalidState := by
          simp [publishQuiz, hfound, hstate]
        rw [this]
        exact h
      | draft =>
        have : publishQuiz st id = Except.ok
            { st with quizzes := st.quizzes.map (fun p =>
                if p.1 = id then (id, { quiz with state := QuizState.published })
                else p) } := by
          simp [publishQuiz, hfound, hstate]
        rw [this]
        intro p hp q hq
        obtain ⟨p', hp', hpe⟩ := List.mem_map.1 hp
        by_cases hid : p'.1 = id
        · rw [if_pos hid] at hpe
          subst hpe
          -- the published copy keeps the questions of the stored quiz
          unfold getQuizRec at hfound
          rcases hof : st.quizzes.find? (fun p => decide (p.1 = id)) with _ | pr
          · rw [hof] at hfound
            simp at hfound
          · rw [hof] at hfound
            simp at hfound
            have hmem := List.mem_of_find?_eq_some hof
            have hq2 : q ∈ pr.2.questions := by
              rw [hfound]
              exact hq
            exact h pr hmem q hq2
        · rw [if_neg hid] at hpe
          subst hpe
          exact h p' hp' q hq

theorem storeInv_foldl (ops : List StoreOp) (st : QuizStore)
    (h : storeInv st) : storeInv (ops.foldl applyStoreOp st) := by
  induction ops generalizing st with
  | nil => exact h
  | cons op ops ih => exact ih _ (storeInv_applyStoreOp st op h)

theorem storeInv_empty : storeInv emptyStore := by
  intro p hp
  simp [emptyStore] at hp

theorem getQuizRec_append (st : QuizStore) (l : List (Nat × Quiz)) (n id : Nat)
    (q : Quiz) (h : getQuizRec st id = some q) :
    getQuizRec { quizzes := st.quizzes ++ l, nextId := n } id = some q := by
  unfold getQuizRec at h ⊢
  rcases hof : st.quizzes.find? (fun p => decide (p.1 = id)) with _ | pr
  · rw [hof] at h
    simp at h
  · rw [hof] at h
    show ((st.quizzes ++ l).find? (fun p => decide (p.1 = id))).map Prod.snd =
      some q
    rw [List.find?_append, hof]
    exact h

theorem getQuizRec_update_other (st : QuizStore) (id id' : Nat) (newq : Quiz)
    (n : Nat) (h : id ≠ id') :
    getQuizRec
        { quizzes := st.quizzes.map (fun p =>
            if p.1 = id' then (id', newq) else p),
          nextId := n } id =
      getQuizRec st id := by
  unfold getQuizRec
  show ((st.quizzes.map fun p => if p.1 = id' then (id', newq) else p).find?
      (fun p => decide (p.1 = id))).map Prod.snd = _
  rw [find?_map_update_other st.quizzes id' id newq h]

theorem published_applyStoreOp (st : QuizStore) (op : StoreOp) (id : Nat)
    (h : quizStateOf st id = some QuizState.published) :
    quizStateOf (applyStoreOp st op) id = some QuizState.published := by
  obtain ⟨quiz, hfound, hstate⟩ : ∃ quiz, getQuizRec st id = some quiz ∧
      quiz.state = QuizState.published := by
    unfold quizStateOf at h
    rcases hof : getQuizRec st id with _ | quiz
    · rw [hof] at h
      simp at h
    · rw [hof] at h
      simp at h
      exact ⟨quiz, rfl, h⟩
  cases op with
  | create o t qs =>
    show quizStateOf (match createQuiz st o t qs with
      | Except.ok (st', _) => st'
      | Except.error _ => st) id = some QuizState.published
    by_cases hv : qs.all validQuestion = true
    · rw [createQuiz_ok_of_valid st o t qs hv]
      unfold quizStateOf
      rw [getQuizRec_append st _ _ id quiz hfound]
      simp [hstate]
    · rw [createQuiz_invalid st o t qs (Bool.eq_false_iff.2 hv)]
      exact h
  | update id' qs =>
    show quizStateOf (match updateQuiz st id' qs with
      | Except.ok st' => st'
      | Except.error _ => st) id = some QuizState.published
    by_cases hv : qs.all validQuestion = true
    · cases hfound' : getQuizRec st id' with
      | none =>
        have herr : updateQuiz st id' qs = Except.error CoreError.notFound := by
          unfold updateQuiz
          rw [if_pos hv, hfound']
        rw [herr]
        exact h
      | some quiz' =>
        cases hstate' : quiz'.state with
        | published =>
          have herr : updateQuiz st id' qs =
              Except.error CoreError.invalidState := by
            simp [updateQuiz, hv, hfound', hstate']
          rw [herr]
          exact h
        | draft =>
          have hupd : updateQuiz st id' qs = Except.ok
              { st with quizzes := st.quizzes.map (fun p =>
                  if p.1 = id' then (id', { quiz' with questions := qs })
                  else p) } := by
            simp [updateQuiz, hv, hfound', hstate']
          rw [hupd]
          have hne : id ≠ id' := by
            intro hc
            rw [hc, hfound'] at hfound
            have he : quiz = quiz' := by
              injection hfound with he
              exact he.symm
            rw [he, hstate'] at hstate
            exact QuizState.noConfusion hstate
          unfold quizStateOf
          rw [getQuizRec_update_other st id id' _ st.nextId hne, hfound]
          simp [hstate]
    · rw [updateQuiz_invalid st id' qs (Bool.eq_false_iff.2 hv)]
      exact h
  | publish id' =>
    show quizStateOf (match publishQuiz st id' with
      | Except.ok st' => st'
      | Except.error _ => st) id = some QuizState.published
    cases hfound' : getQuizRec st id' with
    | none =>
      have herr : publishQuiz st id' = Except.error CoreError.notFound := by
        unfold publishQuiz
        rw [hfound']
      rw [herr]
      exact h
    | some quiz' =>
      cases hstate' : quiz'.state with
      | published =>
        have herr : publishQuiz st id' = Except.error CoreError.invalidState := by
          simp [publishQuiz, hfound', hstate']
        rw [herr]
        exact h
      | draft =>
        have hupd : publishQuiz st id' = Except.ok
            { st with quizzes := st.quizzes.map (fun p =>
                if p.1 = id' then (id', { quiz' with state := QuizState.published })
                else p) } := by
          simp [publishQuiz, hfound', hstate']
        rw [hupd]
        have hne : id ≠ id' := by
          intro hc
          rw [hc, hfound'] at hfound
          have he : quiz = quiz' := by
            injection hfound with he
            exact he.symm
          rw [he, hstate'] at hstate
          exact QuizState.noConfusion hstate
        unfold quizStateOf
        rw [getQuizRec_update_other st id id' _ st.nextId hne, hfound]
        simp [hstate]

/-! ### Lemmas about the Attempt Engine -/

theorem lookupAttempt_updateAttempt_self (e : Engine) (aid : Nat)
    (a a' : AttemptRec) (h : lookupAttempt e aid = some a) :
    lookupAttempt (updateAttempt e aid a') aid = some a' := by
  unfold lookupAttempt at h
  rcases hof : e.attempts.find? (fun p => decide (p.1 = aid)) with _ | pr
  · rw [hof] at h
    simp at h
  · have hmem := List.mem_of_find?_eq_some hof
    have hpred := List.find?_some hof
    have hany : e.attempts.any (fun p => decide (p.1 = aid)) = true :=
      List.any_eq_true.2 ⟨pr, hmem, hpred⟩
    unfold lookupAttempt updateAttempt
    show ((e.attempts.map fun p => if p.1 = aid then (aid, a') else p).find?
        (fun p => decide (p.1 = aid))).map Prod.snd = some a'
    rw [find?_map_update_self e.attempts aid a' hany]
    rfl

theorem lookupAttempt_updateAttempt_other (e : Engine) (bid aid : Nat)
    (a' : AttemptRec) (h : aid ≠ bid) :
    lookupAttempt (updateAttempt e bid a') aid = lookupAttempt e aid := by
  unfold lookupAttempt updateAttempt
  show ((e.attempts.map fun p => if p.1 = bid then (bid, a') else p).find?
      (fun p => decide (p.1 = aid))).map Prod.snd = _
  rw [find?_map_update_other e.attempts bid aid a' h]

theorem lookupAttempt_append (e : Engine) (l : List (Nat × AttemptRec))
    (n aid : Nat) (a : AttemptRec) (h : lookupAttempt e aid = some a) :
    lookupAttempt { attempts := e.attempts ++ l, nextId := n } aid = some a := by
  unfold lookupAttempt at h ⊢
  rcases hof : e.attempts.find? (fun p => decide (p.1 = aid)) with _ | pr
  · rw [hof] at h
    simp at h
  · rw [hof] at h
    show ((e.attempts ++ l).find? (fun p => decide (p.1 = aid))).map Prod.snd =
      some a
    rw [List.find?_append, hof]
    exact h

theorem submitAttempt_of_submitted (judge : Question → String → ℚ) (e : Engine)
    (aid : Nat) (rs : List (Nat × String)) (t : Nat) (a : AttemptRec)
    (hl : lookupAttempt e aid = some a)
    (hs : a.state = AttemptState.submitted) :
    submitAttempt judge e aid rs t = Except.error CoreError.alreadySubmitted := by
  simp [submitAttempt, hl, hs]

theorem finalizeAttempt_state (judge : Question → String → ℚ) (a : AttemptRec)
    (rs : List (Nat × String)) (t : Nat) :
    (finalizeAttempt judge a rs t).state = AttemptState.submitted := rfl

theorem submitAttempt_ok_inv (judge : Question → String → ℚ) (e : Engine)
    (aid : Nat) (rs : List (Nat × String)) (t : Nat) (e' : Engine)
    (h : submitAttempt judge e aid rs t = Except.ok e') :
    ∃ a, lookupAttempt e aid = some a ∧ a.state = AttemptState.inProgress ∧
      e' = updateAttempt e aid (finalizeAttempt judge a rs t) := by
  unfold submitAttempt at h
  rcases hl : lookupAttempt e aid with _ | a
  · rw [hl] at h
    exact absurd h (by simp)
  · rw [hl] at h
    cases hs : a.state with
    | submitted => simp [hs] at h
    | expired => simp [hs] at h
    | inProgress =>
      simp [hs] at h
      exact ⟨a, rfl, hs, h.symm⟩

theorem submitted_frozen_step (judge : Question → String → ℚ) (e : Engine)
    (op : EngineOp) (aid : Nat) (a : AttemptRec)
    (hl : lookupAttempt e aid = some a)
    (hs : a.state = AttemptState.submitted) :
    lookupAttempt (applyEngineOp judge e op) aid = some a := by
  cases op with
  | start q s snap =>
    show lookupAttempt (match startAttempt e q s snap with
      | Except.ok (e', _) => e'
      | Except.error _ => e) aid = some a
    unfold startAttempt
    by_cases hbusy : e.attempts.any (fun p =>
        decide (p.2.quizId = q ∧ p.2.studentId = s ∧
          p.2.state = AttemptState.inProgress)) = true
    · rw [if_pos hbusy]
      exact hl
    · rw [if_neg hbusy]
      exact lookupAttempt_append e _ _ aid a hl
  | record bid qid ans =>
    show lookupAttempt (match recordResponse e bid qid ans with
      | Except.ok e' => e'
      | Except.error _ => e) aid = some a
    by_cases hb : bid = aid
    · subst hb
      have herr : recordResponse e bid qid ans =
          Except.error CoreError.invalidState := by
        simp [recordResponse, hl, hs]
      rw [herr]
      exact hl
    · cases hlb : lookupAttempt e bid with
      | none =>
        have herr : recordResponse e bid qid ans =
            Except.error CoreError.notFound := by
          simp [recordResponse, hlb]
        rw [herr]
        exact hl
      | some b =>
        cases hsb : b.state with
        | inProgress =>
          by_cases hq : b.snapshot.any (fun qq => decide (qq.id = qid)) = true
          · have hok : recordResponse e bid qid ans = Except.ok
                (updateAttempt e bid
                  { b with responses := setResponse b.responses qid ans }) := by
              simp [recordResponse, hlb, hsb, hq]
            rw [hok]
            rw [lookupAttempt_updateAttempt_other e bid aid _
              (fun hc => hb hc.symm)]
            exact hl
          · have herr : recordResponse e bid qid ans =
                Except.error CoreError.unknownQuestion := by
              simp [recordResponse, hlb, hsb, hq]
            rw [herr]
            exact hl
        | submitted =>
          have herr : recordResponse e bid qid ans =
              Except.error CoreError.invalidState := by
            simp [recordResponse, hlb, hsb]
          rw [herr]
          exact hl
        | expired =>
          have herr : recordResponse e bid qid ans =
              Except.error CoreError.invalidState := by
            simp [recordResponse, hlb, hsb]
          rw [herr]
          exact hl
  | submit bid rs t =>
    show lookupAttempt (match submitAttempt judge e bid rs t with
      | Except.ok e' => e'
      | Except.error _ => e) aid = some a
    by_cases hb : bid = aid
    · subst hb
      rw [submitAttempt_of_submitted judge e bid rs t a hl hs]
      exact hl
    · cases hlb : lookupAttempt e bid with
      | none =>
        have herr : submitAttempt judge e bid rs t =
            Except.error CoreError.notFound := by
          simp [submitAttempt, hlb]
        rw [herr]
        exact hl
      | some b =>
        cases hsb : b.state with
        | inProgress =>
          have hok : submitAttempt judge e bid rs t = Except.ok
              (updateAttempt e bid (finalizeAttempt judge b rs t)) := by
            simp [submitAttempt, hlb, hsb]
          rw [hok]
          rw [lookupAttempt_updateAttempt_other e bid aid _
            (fun hc => hb hc.symm)]
          exact hl
        | submitted =>
          have herr : submitAttempt judge e bid rs t =
              Except.error CoreError.alreadySubmitted := by
            simp [submitAttempt, hlb, hsb]
          rw [herr]
          exact hl
        | expired =>
          have herr : submitAttempt judge e bid rs t =
              Except.error CoreError.invalidState := by
            simp [submitAttempt, hlb, hsb]
          rw [herr]
          exact hl

theorem submitted_frozen_foldl (judge : Question → String → ℚ)
    (ops : List EngineOp) (e : Engine) (aid : Nat) (a : AttemptRec)
    (hl : lookupAttempt e aid = some a)
    (hs : a.state = AttemptState.submitted) :
    lookupAttempt (ops.foldl (applyEngineOp judge) e) aid = some a := by
  induction ops generalizing e with
  | nil => exact hl
  | cons op ops ih =>
    exact ih (applyEngineOp judge e op)
      (submitted_frozen_step judge e op aid a hl hs)

/-! ## Claim theorems -/

/-- C2 (counterexample): the reported percentage is not the exact value
`score / maxScore × 100`: for a score of 1 out of a maxScore of 3 the code
reports 33, not 33.33…% (= 100/3). -/
theorem percentage_not_exact_at_one_third :
    percentage 1 3 = 33 ∧ (percentage 1 3 : ℚ) ≠ 1 / 3 * 100 := by
  have h33 : percentage 1 3 = 33 := by
    unfold percentage jsRound
    rw [if_pos (by norm_num)]
    rw [show (1 : ℚ) / 3 * 100 + 1 / 2 = 203 / 6 by norm_num]
    rw [Int.floor_eq_iff]
    constructor <;> norm_num
  refine ⟨h33, ?_⟩
  rw [h33]
  norm_num

/-- C2 (amended): for every finalized attempt with `maxScore > 0`, the
reported percentage is `score / maxScore × 100` rounded to an integer
(`Math.round`), hence within one half of the exact value. -/
theorem percentage_within_half_of_exact :
    ∀ score maxScore : ℚ, 0 < maxScore →
      |(percentage score maxScore : ℚ) - score / maxScore * 100| ≤ 1 / 2 := by
  intro score maxScore h
  unfold percentage
  rw [if_pos h]
  exact abs_jsRound_sub_le _

/-- Witness for C2 (amended) at score 1, maxScore 2. -/
theorem percentage_within_half_of_exact_witness :
    (0 : ℚ) < 2 ∧ |(percentage 1 2 : ℚ) - 1 / 2 * 100| ≤ 1 / 2 :=
  ⟨by norm_num, percentage_within_half_of_exact 1 2 (by norm_num)⟩

/-- C3: with `maxScore = 0` (empty quiz) the computed percentage is 0 for
every score; the guard prevents the division. -/
theorem percentage_zero_maxScore_eq_zero :
    ∀ score : ℚ, percentage score 0 = 0 := by
  intro score
  unfold percentage
  rw [if_neg]
  norm_num

/-- C4: recording a response overwrites any prior answer to the same
question with no history: a second write to the same key absorbs the first
(as object states, not merely as lookups), the stored answer is the last one
written, and the attempt score of a snapshot is computed from that last
answer only. -/
theorem recordResponse_last_write_wins :
    (∀ (rs : List (String × String)) (q v₁ v₂ : String),
      setResponse (setResponse rs q v₁) q v₂ = setResponse rs q v₂) ∧
    (∀ (rs : List (String × String)) (q v : String),
      lookupResponse (setResponse rs q v) q = some v) ∧
    (∀ (judge : Question → String → ℚ) (qu : Question)
      (rs : List (Nat × String)) (v₁ v₂ : String),
      scoreAttempt judge [qu] (setResponse (setResponse rs qu.id v₁) qu.id v₂) =
        scoreAttempt judge [qu] (setResponse rs qu.id v₂)) := by
  refine ⟨fun rs q v₁ v₂ => setResponse_setResponse_self rs q v₁ v₂,
    fun rs q v => lookupResponse_setResponse_self rs q v,
    fun judge qu rs v₁ v₂ => ?_⟩
  rw [setResponse_setResponse_self]

/-- C5: an MCQ / True-False answer earns full credit exactly when its
whitespace-trimmed, case-insensitive form equals that of the canonical
answer; credit is binary; in particular "  B  " and "b" both earn full
credit against canonical answer "B". -/
theorem gradeMcq_trim_case_insensitive_binary :
    (∀ canonical answer : String,
      (gradeMcq canonical answer = 1 ↔ normalize answer = normalize canonical)) ∧
    (∀ canonical answer : String,
      gradeMcq canonical answer = 1 ∨ gradeMcq canonical answer = 0) ∧
    gradeMcq "B" "  B  " = 1 ∧ gradeMcq "B" "b" = 1 := by
  refine ⟨fun canonical answer => ?_, fun canonical answer => ?_, by decide, by decide⟩
  · unfold gradeMcq
    by_cases h : normalize answer = normalize canonical
    · simp [h]
    · simp only [if_neg h, h, iff_false]
      norm_num
  · unfold gradeMcq
    by_cases h : normalize answer = normalize canonical
    · exact Or.inl (if_pos h)
    · exact Or.inr (if_neg h)

/-- C8: `getProfile` reports `totalAttempts` as the number of finalized
attempts and `averageScore` as their simple cumulative mean; after attempts
scoring 100%, 50% and 0% it reports (50, 3). -/
theorem getProfile_cumulative_mean :
    (∀ ps : List ℚ, (getProfile (buildProfile ps)).2 = ps.length) ∧
    (∀ ps : List ℚ, ps ≠ [] →
      (getProfile (buildProfile ps)).1 = ps.sum / ps.length) ∧
    getProfile (buildProfile [100, 50, 0]) = (50, 3) := by
  have hkey : ∀ ps : List ℚ, (buildProfile ps).totalAttempts = ps.length ∧
      (buildProfile ps).averageScore * (ps.length : ℚ) = ps.sum := by
    intro ps
    obtain ⟨hT, hA⟩ := foldl_recordFinalizedAttempt ps emptyProfile
    unfold buildProfile
    constructor
    · rw [hT]; simp [emptyProfile]
    · have h0 : emptyProfile.totalAttempts = 0 := rfl
      have h0' : emptyProfile.averageScore = 0 := rfl
      rw [h0, h0'] at hA
      simpa using hA
  refine ⟨fun ps => (hkey ps).1, fun ps hne => ?_, ?_⟩
  · have hlen : (ps.length : ℚ) ≠ 0 := by
      have hlen' : ps.length ≠ 0 := by
        simpa [List.length_eq_zero] using hne
      exact_mod_cast hlen'
    rw [eq_div_iff hlen]
    exact (hkey ps).2
  · unfold getProfile
    have h := hkey [100, 50, 0]
    have hT : (buildProfile [100, 50, 0]).totalAttempts = 3 := h.1
    have hA : (buildProfile [100, 50, 0]).averageScore = 50 := by
      have := h.2
      rw [show (([100, 50, 0] : List ℚ).length : ℚ) = 3 by norm_num,
        show ([100, 50, 0] : List ℚ).sum = 150 by norm_num] at this
      linarith
    rw [hT, hA]

/-- Witness for C8 at the concrete attempt list [100, 50, 0]. -/
theorem getProfile_cumulative_mean_witness :
    ([100, 50, 0] : List ℚ) ≠ [] ∧
      (getProfile (buildProfile [100, 50, 0])).1 =
        ([100, 50, 0] : List ℚ).sum / ([100, 50, 0] : List ℚ).length :=
  ⟨by simp, getProfile_cumulative_mean.2.1 [100, 50, 0] (by simp)⟩

/-- C10: `formatTime s` renders `⌊s / 60⌋` before the colon and `s % 60` as
a zero-padded two-digit field after it (always < 60), and
minutes × 60 + seconds recovers `s` exactly. -/
theorem formatTime_roundtrip :
    ∀ s : Nat,
      valOfChars (minutesField (formatTime s).data) = s / 60 ∧
      valOfChars (secondsField (formatTime s).data) = s % 60 ∧
      (secondsField (formatTime s).data).length = 2 ∧
      valOfChars (secondsField (formatTime s).data) < 60 ∧
      valOfChars (minutesField (formatTime s).data) * 60 +
        valOfChars (secondsField (formatTime s).data) = s := by
  intro s
  have hdata : (formatTime s).data =
      natChars (s / 60) ++ ':' :: padStart (natChars (s % 60)) 2 '0' := by
    show (natChars (s / 60) ++ [':'] ++ padStart (natChars (s % 60)) 2 '0') = _
    simp
  have hmins : minutesField (formatTime s).data = natChars (s / 60) := by
    rw [hdata]
    exact takeWhile_append_colon _ _ (natChars_ne_colon _)
  have hsecs : secondsField (formatTime s).data =
      padStart (natChars (s % 60)) 2 '0' := by
    unfold secondsField
    rw [hdata, dropWhile_append_colon _ _ (natChars_ne_colon _)]
    rfl
  have hslt : s % 60 < 60 := Nat.mod_lt _ (by norm_num)
  have hvm : valOfChars (minutesField (formatTime s).data) = s / 60 := by
    rw [hmins]; exact valOfChars_natChars _
  have hvs : valOfChars (secondsField (formatTime s).data) = s % 60 := by
    rw [hsecs, valOfChars_padStart_zero]
    exact valOfChars_natChars _
  refine ⟨hvm, hvs, ?_, ?_, ?_⟩
  · rw [hsecs]
    exact length_padStart _ _ (natChars_length_le_two _ hslt)
  · rw [hvs]; exact hslt
  · rw [hvm, hvs]
    omega

/-- C9: `handleResponseChange(questionId, value)` changes the response map
only at `questionId`: every other key's stored answer is unchanged, no key
is ever removed, key uniqueness is preserved, and `getAnsweredCount` never
decreases across any sequence of response changes. -/
theorem handleResponseChange_frame :
    (∀ (rs : List (String × String)) (q v q' : String), q' ≠ q →
      lookupResponse (setResponse rs q v) q' = lookupResponse rs q') ∧
    (∀ (rs : List (String × String)) (q v q' : String),
      (lookupResponse rs q').isSome →
        (lookupResponse (setResponse rs q v) q').isSome) ∧
    (∀ (rs : List (String × String)) (q v : String),
      (rs.map Prod.fst).Nodup → ((setResponse rs q v).map Prod.fst).Nodup) ∧
    (∀ (rs updates : List (String × String)),
      getAnsweredCount rs ≤ getAnsweredCount (applyResponses rs updates)) :=
  ⟨fun rs q v q' h => lookupResponse_setResponse_other rs q q' v h,
   fun rs q v q' h => isSome_lookupResponse_setResponse rs q q' v h,
   fun rs q v h => nodupKeys_setResponse rs q v h,
   fun rs updates => length_applyResponses rs updates⟩

/-- C6: every stored MCQ / True-False question satisfies the ≥2-options and
answer-in-options invariant in every store reachable by quiz operations, and
`createQuiz` / `updateQuiz` reject an invalid question set with
`ValidationError`. -/
theorem quiz_questions_invariant :
    (∀ ops : List StoreOp, ∀ p ∈ (runStore ops).quizzes,
      ∀ q ∈ p.2.questions, validQuestion q = true) ∧
    (∀ (st : QuizStore) (o : Nat) (t : String) (qs : List Question),
      qs.all validQuestion = false →
        createQuiz st o t qs = Except.error CoreError.validationError) ∧
    (∀ (st : QuizStore) (id : Nat) (qs : List Question),
      qs.all validQuestion = false →
        updateQuiz st id qs = Except.error CoreError.validationError) :=
  ⟨fun ops => storeInv_foldl ops emptyStore storeInv_empty,
   fun st o t qs hv => createQuiz_invalid st o t qs hv,
   fun st id qs hv => updateQuiz_invalid st id qs hv⟩

/-- Witness for C6: a one-option MCQ question is rejected. -/
theorem quiz_questions_invariant_witness :
    ([({ id := 0, prompt := "p", qtype := QType.mcq, options := ["A"],
         correctAnswer := "B", explanation := "", topicTag := "t" } :
          Question)].all validQuestion = false) ∧
      createQuiz emptyStore 0 "quiz"
          [{ id := 0, prompt := "p", qtype := QType.mcq, options := ["A"],
             correctAnswer := "B", explanation := "", topicTag := "t" }] =
        Except.error CoreError.validationError :=
  ⟨by decide,
   quiz_questions_invariant.2.1 emptyStore 0 "quiz"
     [{ id := 0, prompt := "p", qtype := QType.mcq, options := ["A"],
        correctAnswer := "B", explanation := "", topicTag := "t" }] (by decide)⟩

/-- C7: publication is irreversible — a quiz observed Published stays
Published under every sequence of subsequent store operations. -/
theorem publish_irreversible :
    ∀ (st : QuizStore) (id : Nat),
      quizStateOf st id = some QuizState.published →
      ∀ ops : List StoreOp,
        quizStateOf (ops.foldl applyStoreOp st) id = some QuizState.published := by
  intro st id h ops
  induction ops generalizing st with
  | nil => exact h
  | cons op ops ih =>
    exact ih (applyStoreOp st op) (published_applyStoreOp st op id h)

/-- Witness for C7 on a store with one published quiz and a republish call. -/
theorem publish_irreversible_witness :
    quizStateOf
        { quizzes := [(0, { owner := 0, title := "q", questions := [],
                            state := QuizState.published })], nextId := 1 } 0 =
      some QuizState.published ∧
    quizStateOf
        ([StoreOp.publish 0].foldl applyStoreOp
          { quizzes := [(0, { owner := 0, title := "q", questions := [],
                              state := QuizState.published })], nextId := 1 }) 0 =
      some QuizState.published :=
  ⟨by decide,
   publish_irreversible
     { quizzes := [(0, { owner := 0, title := "q", questions := [],
                         state := QuizState.published })], nextId := 1 } 0 (by decide)
     [StoreOp.publish 0]⟩

/-- C1: once a `submitAttempt` call has succeeded, the attempt is Submitted
with its score and breakdown stored; after any sequence of further engine
operations the stored record (score and per-question breakdown included) is
unchanged and every later `submitAttempt` on the same attempt id is rejected
with `AlreadySubmitted` — the score is computed exactly once. -/
theorem submitAttempt_idempotent_effect :
    ∀ (judge : Question → String → ℚ) (e : Engine) (aid : Nat)
      (rs : List (Nat × String)) (t : Nat) (e' : Engine),
      submitAttempt judge e aid rs t = Except.ok e' →
      (∃ a', lookupAttempt e' aid = some a' ∧
        a'.state = AttemptState.submitted ∧
        a'.score.isSome = true ∧ a'.breakdown.isSome = true) ∧
      ∀ (ops : List EngineOp) (rs₂ : List (Nat × String)) (t₂ : Nat),
        lookupAttempt (ops.foldl (applyEngineOp judge) e') aid =
            lookupAttempt e' aid ∧
          submitAttempt judge (ops.foldl (applyEngineOp judge) e') aid rs₂ t₂ =
            Except.error CoreError.alreadySubmitted := by
  intro judge e aid rs t e' h
  obtain ⟨a, hl, _, he⟩ := submitAttempt_ok_inv judge e aid rs t e' h
  have hl' : lookupAttempt e' aid = some (finalizeAttempt judge a rs t) := by
    rw [he]
    exact lookupAttempt_updateAttempt_self e aid a _ hl
  have hsub : (finalizeAttempt judge a rs t).state = AttemptState.submitted :=
    finalizeAttempt_state judge a rs t
  refine ⟨⟨_, hl', hsub, rfl, rfl⟩, ?_⟩
  intro ops rs₂ t₂
  have hfix : lookupAttempt (ops.foldl (applyEngineOp judge) e') aid =
      some (finalizeAttempt judge a rs t) :=
    submitted_frozen_foldl judge ops e' aid _ hl' hsub
  refine ⟨by rw [hfix, hl'], ?_⟩
  exact submitAttempt_of_submitted judge _ aid rs₂ t₂ _ hfix hsub

/-- Witness for C1 on a one-attempt engine: the submit succeeds, and a
repeated submit is rejected with `AlreadySubmitted` while the record stays. -/
theorem submitAttempt_idempotent_effect_witness :
    submitAttempt (fun _ _ => (0 : ℚ))
        { attempts := [(0, { quizId := 0, studentId := 0,
                             state := AttemptState.inProgress, snapshot := [],
                             responses := [], score := none, maxScore := none,
                             breakdown := none, timeTaken := none })],
          nextId := 1 } 0 [] 7 =
      Except.ok
        { attempts := [(0, { quizId := 0, studentId := 0,
                             state := AttemptState.submitted, snapshot := [],
                             responses := [], score := some 0, maxScore := some 0,
                             breakdown := some [], timeTaken := some 7 })],
          nextId := 1 } ∧
    (lookupAttempt
        ([EngineOp.record 0 0 "x"].foldl (applyEngineOp (fun _ _ => (0 : ℚ)))
          { attempts := [(0, { quizId := 0, studentId := 0,
                               state := AttemptState.submitted, snapshot := [],
                               responses := [], score := some 0,
                               maxScore := some 0, breakdown := some [],
                               timeTaken := some 7 })],
            nextId := 1 }) 0 =
      lookupAttempt
        { attempts := [(0, { quizId := 0, studentId := 0,
                             state := AttemptState.submitted, snapshot := [],
                             responses := [], score := some 0, maxScore := some 0,
                             breakdown := some [], timeTaken := some 7 })],
          nextId := 1 } 0 ∧
    submitAttempt (fun _ _ => (0 : ℚ))
        ([EngineOp.record 0 0 "x"].foldl (applyEngineOp (fun _ _ => (0 : ℚ)))
          { attempts := [(0, { quizId := 0, studentId := 0,
                               state := AttemptState.submitted, snapshot := [],
                               responses := [], score := some 0,
                               maxScore := some 0, breakdown := some [],
                               timeTaken := some 7 })],
            nextId := 1 }) 0 [] 3 =
      Except.error CoreError.alreadySubmitted) :=
  ⟨by rfl,
   (submitAttempt_idempotent_effect (fun _ _ => (0 : ℚ))
      { attempts := [(0, { quizId := 0, studentId := 0,
                           state := AttemptState.inProgress, snapshot := [],
                           responses := [], score := none, maxScore := none,
                           breakdown := none, timeTaken := none })],
        nextId := 1 } 0 [] 7
      { attempts := [(0, { quizId := 0, studentId := 0,
                           state := AttemptState.submitted, snapshot := [],
                           responses := [], score := some 0, maxScore := some 0,
                           breakdown := some [], timeTaken := some 7 })],
        nextId := 1 } (by rfl)).2 [EngineOp.record 0 0 "x"] [] 3⟩

/-- Witness for C9 on a concrete response map. -/
theorem handleResponseChange_frame_witness :
    ("q2" : String) ≠ "q1" ∧
      lookupResponse (setResponse [("q2", "A")] "q1" "B") "q2" =
        lookupResponse [("q2", "A")] "q2" :=
  ⟨by decide, handleResponseChange_frame.1 [("q2", "A")] "q1" "B" "q2" (by decide)⟩

end ConceptCatch
